import Mathlib

/-
Verification of the Ollama provider adapter (`legion/providers/ollama.py`).

The adapter translates a canonical message model into the Ollama wire
format, dispatches three completion modes (plain chat, tool-augmented,
schema-constrained JSON), and extracts content / usage / tool calls from
the raw backend response.  The definitions below are a shallow embedding
of that module: Python dicts sent on the wire become association lists of
key/value pairs, `hasattr`-guarded attribute access becomes `Option`
fields on the raw-response model, raised exceptions become `Except` /
explicit error results.
-/

namespace Legion

/-- The canonical message roles (`Role` from `legion/interface/schemas.py`,
as used by the adapter: SYSTEM, USER, ASSISTANT, TOOL). -/
inductive Role where
  | system
  | user
  | assistant
  | tool
deriving DecidableEq

/-- The canonical message record: role, content, optional name
(name is required for tool-role messages by convention, optional otherwise). -/
structure Message where
  role : Role
  content : String
  name : Option String := none
deriving DecidableEq

/-- A value stored under a key of a wire-format dict: a string, or Python
`None` (JSON null).  An absent key is modelled by the key simply not being
present in the association list. -/
inductive WireValue where
  | str (s : String)
  | null
deriving DecidableEq

/-- One translated wire-format message: a Python dict, modelled as an
association list in insertion order. -/
abbrev WireEntry := List (String × WireValue)

/-- `None`-aware injection of an optional string into a wire value
(Python serializes `None` as null). -/
def optWire : Option String → WireValue
  | none => WireValue.null
  | some s => WireValue.str s

/-- The canonical string of each role value (the strings the adapter puts
in the "role" field of the wire dict). -/
def roleStr : Role → String
  | Role.system => "system"
  | Role.user => "user"
  | Role.assistant => "assistant"
  | Role.tool => "tool"

/-- Embedding of the per-message branch of `OllamaProvider._format_messages`:
system messages become role/content dicts, tool messages additionally carry
the name field, user and assistant messages become plain role/content dicts
(`"user" if msg.role == Role.USER else "assistant"`). -/
def formatMessage (msg : Message) : WireEntry :=
  match msg.role with
  | Role.system => [("role", WireValue.str "system"), ("content", WireValue.str msg.content)]
  | Role.tool =>
      [("role", WireValue.str "tool"), ("content", WireValue.str msg.content),
       ("name", optWire msg.name)]
  | Role.user => [("role", WireValue.str "user"), ("content", WireValue.str msg.content)]
  | Role.assistant =>
      [("role", WireValue.str "assistant"), ("content", WireValue.str msg.content)]

/-- Embedding of `OllamaProvider._format_messages`: the loop appends one
translated dict per input message, in order. -/
def formatMessages (messages : List Message) : List WireEntry :=
  messages.foldl (fun acc msg => acc ++ [formatMessage msg]) []

/-- Modelled from the spec: pydantic serialization `Message.model_dump()`
of the canonical message record (the `Message` class lives in
`legion/interface/schemas.py`, which is not part of the sources here; the
spec gives its fields as role, content and optional name).  A full model
dump emits every declared field, the optional name as null when absent.
The role is rendered here by its canonical string, the reading most
favourable to agreement with the sync translation. -/
def modelDump (msg : Message) : WireEntry :=
  [("role", WireValue.str (roleStr msg.role)), ("content", WireValue.str msg.content),
   ("name", optWire msg.name)]

/-- Embedding of the message payload built by
`OllamaProvider._aget_chat_completion`:
`[msg.model_dump() for msg in messages]`. -/
def agetChatMessages (messages : List Message) : List WireEntry :=
  messages.map modelDump

/-- Python whitespace predicate used by `str.strip()` (ASCII part:
space, tab, newline, carriage return, vertical tab, form feed). -/
def pyIsSpace (c : Char) : Bool :=
  c = ' ' || c = '\t' || c = '\n' || c = '\r' || c = '\x0b' || c = '\x0c'

/-- Embedding of Python `str.strip()` on the character list: drop
whitespace from the front, then from the back. -/
def pyStripList (l : List Char) : List Char :=
  ((l.dropWhile pyIsSpace).reverse.dropWhile pyIsSpace).reverse

/-- Embedding of Python `str.strip()`. -/
def pyStrip (s : String) : String :=
  ⟨pyStripList s.data⟩

/-- The `content` attribute of the raw response message: absent
(`hasattr` is false), present but `None`, or present as a string. -/
inductive ContentAttr where
  | absent
  | null
  | str (s : String)
deriving DecidableEq

/-- A Python value serializable by `json.dumps` (the structured tool-call
arguments reported by the backend). -/
inductive PyJson where
  | null
  | bool (b : Bool)
  | int (n : Int)
  | str (s : String)
  | arr (xs : List PyJson)
  | obj (kvs : List (String × PyJson))

/-- Decimal digits with explicit fuel (structural recursion, so that the
rendering evaluates by reduction); the fuel is always sufficient at the
call site below. -/
def natDecDigitsAux : Nat → Nat → List Nat
  | 0, _ => []
  | fuel + 1, n => if n < 10 then [n] else natDecDigitsAux fuel (n / 10) ++ [n % 10]

/-- Decimal digits of a natural number, most significant first. -/
def natDecDigits (n : Nat) : List Nat :=
  natDecDigitsAux (n + 1) n

/-- A decimal digit as a character. -/
def natDigitChar : Nat → Char
  | 0 => '0'
  | 1 => '1'
  | 2 => '2'
  | 3 => '3'
  | 4 => '4'
  | 5 => '5'
  | 6 => '6'
  | 7 => '7'
  | 8 => '8'
  | 9 => '9'
  | _ => '?'

/-- Embedding of Python `str(n)` for a nonnegative integer: its decimal
rendering (as interpolated by the f-string `f"call_{len(tool_calls)}"`). -/
def pyStrNat (n : Nat) : String :=
  ⟨(natDecDigits n).map natDigitChar⟩

/-- Embedding of Python `str(n)` for an integer. -/
def pyStrInt (n : Int) : String :=
  if n < 0 then "-" ++ pyStrNat n.natAbs else pyStrNat n.natAbs

/-- JSON string escaping for `json.dumps` (the escapes relevant to the
embedded values; `json.dumps` additionally escapes other control
characters, which the claims never exercise). -/
def jsonEscapeChar (c : Char) : List Char :=
  if c = '\\' then ['\\', '\\']
  else if c = '\"' then ['\\', '\"']
  else if c = '\n' then ['\\', 'n']
  else if c = '\t' then ['\\', 't']
  else if c = '\r' then ['\\', 'r']
  else [c]

/-- A JSON-quoted string literal. -/
def jsonQuote (s : String) : String :=
  ⟨'\"' :: s.data.foldr (fun c acc => jsonEscapeChar c ++ acc) ['\"']⟩

mutual

/-- Embedding of Python `json.dumps` with its default separators
(", " between items, ": " between a key and its value). -/
def jsonDumps : PyJson → String
  | PyJson.null => "null"
  | PyJson.bool true => "true"
  | PyJson.bool false => "false"
  | PyJson.int n => pyStrInt n
  | PyJson.str s => jsonQuote s
  | PyJson.arr xs => "[" ++ jsonDumpsArr xs ++ "]"
  | PyJson.obj kvs => "\x7b" ++ jsonDumpsObj kvs ++ "\x7d"

/-- Comma-separated rendering of a JSON array body. -/
def jsonDumpsArr : List PyJson → String
  | [] => ""
  | [x] => jsonDumps x
  | x :: xs => jsonDumps x ++ ", " ++ jsonDumpsArr xs

/-- Comma-separated rendering of a JSON object body. -/
def jsonDumpsObj : List (String × PyJson) → String
  | [] => ""
  | [(k, v)] => jsonQuote k ++ ": " ++ jsonDumps v
  | (k, v) :: kvs => jsonQuote k ++ ": " ++ jsonDumps v ++ ", " ++ jsonDumpsObj kvs

end

/-- The function record of one backend-reported tool invocation
(`tool_call.function`): a name and structured arguments. -/
structure RawFunction where
  name : String
  arguments : PyJson

/-- One backend-reported tool invocation: the id attribute may be absent
(`getattr(tool_call, "id", ...)` falls back), the function record is
always accessed directly. -/
structure RawToolCall where
  id : Option String := none
  function : RawFunction

/-- The `tool_calls` attribute of the raw response message: absent
(`hasattr` is false), present but holding `None` (the SDK's
zero-invocation shape), or present holding a list of invocations. -/
inductive ToolCallsAttr where
  | absent
  | null
  | calls (l : List RawToolCall)

/-- The `message` object of a raw backend response, with the attributes
the adapter reads: `content` (absent / null / string) and `tool_calls`
(absent / null / list). -/
structure RawMessage where
  content : ContentAttr := ContentAttr.absent
  tool_calls : ToolCallsAttr := ToolCallsAttr.absent

/-- A raw backend response, with the attributes the adapter reads:
the optional `message` object and the optional token-count attributes
(`getattr(response, ..., 0)` falls back to zero). -/
structure RawResponse where
  message : Option RawMessage := none
  prompt_tokens : Option Nat := none
  completion_tokens : Option Nat := none
  total_tokens : Option Nat := none

/-- The usage counters of the response envelope (`TokenUsage` from
`legion/interface/schemas.py`). -/
structure TokenUsage where
  prompt_tokens : Nat
  completion_tokens : Nat
  total_tokens : Nat
deriving DecidableEq

/-- Embedding of `OllamaProvider._extract_usage`: each counter is read
with a zero default. -/
def extractUsage (r : RawResponse) : TokenUsage :=
  { prompt_tokens := r.prompt_tokens.getD 0,
    completion_tokens := r.completion_tokens.getD 0,
    total_tokens := r.total_tokens.getD 0 }

/-- Embedding of `OllamaProvider._extract_content`.  A missing `message`
attribute or a missing `content` attribute yields the empty string; a
string content is returned stripped.  A `content` attribute holding
`None` passes the `hasattr` guard and then `None.strip()` raises an
`AttributeError`, modelled as the error branch. -/
def extractContent (r : RawResponse) : Except String String :=
  match r.message with
  | none => Except.ok ""
  | some m =>
    match m.content with
    | ContentAttr.str s => Except.ok (pyStrip s)
    | ContentAttr.null =>
        Except.error "AttributeError: NoneType object has no attribute strip"
    | ContentAttr.absent => Except.ok ""

/-- The function part of one extracted tool call (name plus
JSON-serialized arguments). -/
structure FunctionOut where
  name : String
  arguments : String
deriving DecidableEq

/-- One extracted tool call in the canonical shape
`{id, type = "function", function}`. -/
structure ToolCallOut where
  id : String
  type : String
  function : FunctionOut
deriving DecidableEq

/-- The dict appended for one backend-reported invocation at position
`idx` of the output list: `getattr(tool_call, "id", f"call_{idx}")`,
type "function", and the function name with `json.dumps`-serialized
arguments. -/
def mkToolCallOut (idx : Nat) (tc : RawToolCall) : ToolCallOut :=
  { id := tc.id.getD ("call_" ++ pyStrNat idx),
    type := "function",
    function := { name := tc.function.name, arguments := jsonDumps tc.function.arguments } }

/-- Embedding of the extraction loop of
`OllamaProvider._extract_tool_calls`: each invocation is appended with
`len(tool_calls)` — the length of the list built so far — as the
positional fallback index. -/
def buildToolCalls (calls : List RawToolCall) : List ToolCallOut :=
  calls.foldl (fun acc tc => acc ++ [mkToolCallOut acc.length tc]) []

/-- Embedding of `OllamaProvider._extract_tool_calls`: `None` when the
`message` or `message.tool_calls` attribute is absent, otherwise the
built list, turned back into `None` when it is empty
(`return tool_calls if tool_calls else None`).  A `tool_calls`
attribute that is present but holds `None` passes the `hasattr` guard
and then `for tool_call in None` raises a `TypeError`, modelled as the
error branch. -/
def extractToolCalls (r : RawResponse) : Except String (Option (List ToolCallOut)) :=
  match r.message with
  | none => Except.ok none
  | some m =>
    match m.tool_calls with
    | ToolCallsAttr.absent => Except.ok none
    | ToolCallsAttr.null => Except.error "TypeError: NoneType object is not iterable"
    | ToolCallsAttr.calls calls =>
      let out := buildToolCalls calls
      if out.isEmpty then Except.ok none else Except.ok (some out)

/-- The adapter-uniform error (`ProviderError` from `legion/errors.py`,
not part of the sources here; per the spec it is a single error kind
carrying a human-readable message, and `str(e)` on it yields that
message). -/
structure ProviderError where
  message : String
deriving DecidableEq

/-- The normalized response envelope (`ModelResponse` from
`legion/interface/schemas.py`): content text, the raw backend payload,
usage counters, and the optional tool-call list. -/
structure ModelResponse where
  content : String
  raw_response : RawResponse
  usage : TokenUsage
  tool_calls : Option (List ToolCallOut)

/-- The outcome of the backend call `self.client.chat(...)`: a raw
response, or a raised exception carrying a message. -/
inductive PyResult (α : Type) where
  | ok (val : α)
  | exn (msg : String)

/-- Embedding of `OllamaProvider._get_chat_completion` downstream of the
backend call: the whole body sits in one `try`, so a backend exception —
or the `AttributeError` of content extraction — is wrapped as
`ProviderError("Ollama completion failed: ...")`.  `tool_calls` is the
literal `None`. -/
def getChatCompletion (br : PyResult RawResponse) : Except ProviderError ModelResponse :=
  match br with
  | PyResult.exn m => Except.error ⟨"Ollama completion failed: " ++ m⟩
  | PyResult.ok r =>
    match extractContent r with
    | Except.error m => Except.error ⟨"Ollama completion failed: " ++ m⟩
    | Except.ok c =>
        Except.ok { content := c, raw_response := r, usage := extractUsage r,
                    tool_calls := none }

/-- Embedding of `OllamaProvider._get_tool_completion` downstream of the
backend call: tool calls are extracted from the raw response first, then
the content; either extraction may raise and is wrapped by the same
`try`. -/
def getToolCompletion (br : PyResult RawResponse) : Except ProviderError ModelResponse :=
  match br with
  | PyResult.exn m => Except.error ⟨"Ollama tool completion failed: " ++ m⟩
  | PyResult.ok r =>
    match extractToolCalls r with
    | Except.error m => Except.error ⟨"Ollama tool completion failed: " ++ m⟩
    | Except.ok tcs =>
      match extractContent r with
      | Except.error m => Except.error ⟨"Ollama tool completion failed: " ++ m⟩
      | Except.ok c =>
          Except.ok { content := c, raw_response := r, usage := extractUsage r,
                      tool_calls := tcs }

/-- The schema directive built by `OllamaProvider._get_json_completion`,
parametrized by the rendered schema text
(`json.dumps(schema.model_json_schema(), indent=2)`). -/
def schemaPrompt (schemaJson : String) : String :=
  "You must respond with valid JSON that matches this schema:\n" ++ schemaJson ++
    "\n\nRespond ONLY with valid JSON. No other text."

/-- Embedding of the message-rewriting loop of
`OllamaProvider._get_json_completion`: non-system messages are appended
in order; each system message overwrites the pending system content with
its own content followed by the schema directive.  The state is the pair
(formatted_messages, system_content), started at `([], prompt)`. -/
def jsonMessagesLoop (prompt : String) (messages : List Message) :
    List Message × String :=
  messages.foldl
    (fun st msg =>
      if msg.role = Role.system then (st.1, msg.content ++ "\n\n" ++ prompt)
      else (st.1 ++ [msg], st.2))
    ([], prompt)

/-- Embedding of the translated message sequence of
`OllamaProvider._get_json_completion`: the loop result with the built
system message inserted at position 0. -/
def jsonCompletionMessages (prompt : String) (messages : List Message) : List Message :=
  let st := jsonMessagesLoop prompt messages
  { role := Role.system, content := st.2, name := none } :: st.1

/-- Embedding of `OllamaProvider._get_json_completion` downstream of the
backend call, parametrized by `json.loads` (`parse`) and
`schema.model_validate` (`validate`), both external library calls.  The
inner `try` wraps extraction, parsing and validation failures as
`ProviderError("Invalid JSON response: ...")`, which the outer `try`
re-wraps as `ProviderError("Ollama JSON completion failed: ...")`. -/
def getJsonCompletion (parse : String → Except String PyJson)
    (validate : PyJson → Except String Unit)
    (br : PyResult RawResponse) : Except ProviderError ModelResponse :=
  match br with
  | PyResult.exn m => Except.error ⟨"Ollama JSON completion failed: " ++ m⟩
  | PyResult.ok r =>
    match extractContent r with
    | Except.error m =>
        Except.error ⟨"Ollama JSON completion failed: Invalid JSON response: " ++ m⟩
    | Except.ok content =>
      match parse content with
      | Except.error m =>
          Except.error ⟨"Ollama JSON completion failed: Invalid JSON response: " ++ m⟩
      | Except.ok data =>
        match validate data with
        | Except.error m =>
            Except.error ⟨"Ollama JSON completion failed: Invalid JSON response: " ++ m⟩
        | Except.ok _ =>
            Except.ok { content := content, raw_response := r, usage := extractUsage r,
                        tool_calls := none }

/-- The inverse wire mapping: read role, content and name back off a
wire-format dict (association-list lookup), mapping the role string back
to the canonical role. -/
def parseRole (s : String) : Option Role :=
  if s = "system" then some Role.system
  else if s = "user" then some Role.user
  else if s = "assistant" then some Role.assistant
  else if s = "tool" then some Role.tool
  else none

/-- The inverse of the wire translation on one entry: recover the
canonical message (role, content, optional name) from a wire dict. -/
def unformatMessage (e : WireEntry) : Option Message :=
  match e.lookup "role", e.lookup "content" with
  | some (WireValue.str r), some (WireValue.str c) =>
    match parseRole r with
    | none => none
    | some role =>
        some { role := role, content := c,
               name := match e.lookup "name" with
                       | some (WireValue.str n) => some n
                       | _ => none }
  | _, _ => none

/- ### Helper lemmas -/

theorem foldl_append_singleton {α β : Type} (f : α → β) (l : List α) (acc : List β) :
    l.foldl (fun a m => a ++ [f m]) acc = acc ++ l.map f := by
  induction l generalizing acc with
  | nil => simp
  | cons x xs ih => simp [ih]

theorem formatMessages_eq_map (l : List Message) :
    formatMessages l = l.map formatMessage := by
  simp [formatMessages, foldl_append_singleton]

theorem buildToolCalls_go (calls : List RawToolCall) (acc : List ToolCallOut) :
    calls.foldl (fun a tc => a ++ [mkToolCallOut a.length tc]) acc
      = acc ++ (calls.enumFrom acc.length).map (fun p => mkToolCallOut p.1 p.2) := by
  induction calls generalizing acc with
  | nil => simp
  | cons c cs ih =>
      simp only [List.foldl_cons, List.enumFrom_cons, List.map_cons]
      rw [ih]
      simp

theorem buildToolCalls_eq (calls : List RawToolCall) :
    buildToolCalls calls = calls.enum.map (fun p => mkToolCallOut p.1 p.2) := by
  unfold buildToolCalls
  rw [buildToolCalls_go]
  simp [List.enum]

theorem buildToolCalls_length (calls : List RawToolCall) :
    (buildToolCalls calls).length = calls.length := by
  rw [buildToolCalls_eq]
  simp

theorem buildToolCalls_getElem (calls : List RawToolCall) (i : Nat) (h : i < calls.length)
    (h2 : i < (buildToolCalls calls).length) :
    (buildToolCalls calls)[i] = mkToolCallOut i calls[i] := by
  have he : i < calls.enum.length := by simpa using h
  simp [buildToolCalls_eq, List.getElem_enum]

/- ### Decimal rendering: correctness and injectivity -/

/-- The value denoted by a most-significant-first decimal digit list. -/
def decVal (ds : List Nat) : Nat :=
  ds.foldl (fun a d => 10 * a + d) 0

theorem decVal_append (xs : List Nat) (d : Nat) :
    decVal (xs ++ [d]) = 10 * decVal xs + d := by
  simp [decVal, List.foldl_append]

theorem decVal_natDecDigitsAux (fuel : Nat) : ∀ n : Nat, n < fuel →
    decVal (natDecDigitsAux fuel n) = n := by
  induction fuel with
  | zero => omega
  | succ fuel ih =>
      intro n hn
      by_cases h10 : n < 10
      · simp [natDecDigitsAux, h10, decVal]
      · rw [natDecDigitsAux, if_neg h10, decVal_append]
        have hd : n / 10 < n := Nat.div_lt_self (by omega) (by omega)
        rw [ih (n / 10) (by omega)]
        omega

theorem decVal_natDecDigits (n : Nat) : decVal (natDecDigits n) = n :=
  decVal_natDecDigitsAux (n + 1) n (by omega)

theorem natDecDigits_inj {m n : Nat} (h : natDecDigits m = natDecDigits n) : m = n := by
  have hm := decVal_natDecDigits m
  rw [h, decVal_natDecDigits] at hm
  omega

theorem natDecDigitsAux_lt (fuel : Nat) : ∀ n : Nat, ∀ d ∈ natDecDigitsAux fuel n, d < 10 := by
  induction fuel with
  | zero => simp [natDecDigitsAux]
  | succ fuel ih =>
      intro n d hd
      by_cases h10 : n < 10
      · simp [natDecDigitsAux, h10] at hd
        omega
      · rw [natDecDigitsAux, if_neg h10] at hd
        rcases List.mem_append.mp hd with h | h
        · exact ih (n / 10) d h
        · simp at h
          omega

theorem natDecDigits_lt (n : Nat) : ∀ d ∈ natDecDigits n, d < 10 :=
  natDecDigitsAux_lt (n + 1) n

theorem natDigitChar_inj : ∀ d₁ < 10, ∀ d₂ < 10,
    natDigitChar d₁ = natDigitChar d₂ → d₁ = d₂ := by decide

theorem map_natDigitChar_inj : ∀ xs ys : List Nat, (∀ d ∈ xs, d < 10) → (∀ d ∈ ys, d < 10) →
    xs.map natDigitChar = ys.map natDigitChar → xs = ys := by
  intro xs
  induction xs with
  | nil =>
      intro ys _ _ h
      cases ys <;> simp_all
  | cons x xs ih =>
      intro ys hx hy h
      cases ys with
      | nil => simp_all
      | cons y ys =>
          simp only [List.map_cons, List.cons.injEq] at h
          have hxy := natDigitChar_inj x (hx x (by simp)) y (hy y (by simp)) h.1
          subst hxy
          rw [ih ys (fun d hd => hx d (by simp [hd])) (fun d hd => hy d (by simp [hd])) h.2]

theorem pyStrNat_inj {m n : Nat} (h : pyStrNat m = pyStrNat n) : m = n := by
  have hd : (natDecDigits m).map natDigitChar = (natDecDigits n).map natDigitChar :=
    congrArg String.data h
  exact natDecDigits_inj
    (map_natDigitChar_inj _ _ (natDecDigits_lt m) (natDecDigits_lt n) hd)

theorem callId_inj {m n : Nat} (h : "call_" ++ pyStrNat m = "call_" ++ pyStrNat n) : m = n := by
  apply pyStrNat_inj
  have hd := congrArg String.data h
  simp only [String.data_append] at hd
  have hc := List.append_cancel_left hd
  exact congrArg String.mk hc

/- ### The JSON-mode message rewriting loop -/

theorem jsonLoop_spec (prompt : String) (msgs : List Message) :
    jsonMessagesLoop prompt msgs
      = (msgs.filter (fun m => !(decide (m.role = Role.system))),
         match (msgs.filter (fun m => decide (m.role = Role.system))).getLast? with
         | none => prompt
         | some m => m.content ++ "\n\n" ++ prompt) := by
  induction msgs using List.reverseRecOn with
  | nil => rfl
  | append_singleton ms m ih =>
      have h1 : jsonMessagesLoop prompt (ms ++ [m])
          = (if m.role = Role.system
             then ((jsonMessagesLoop prompt ms).1, m.content ++ "\n\n" ++ prompt)
             else ((jsonMessagesLoop prompt ms).1 ++ [m], (jsonMessagesLoop prompt ms).2)) := by
        simp [jsonMessagesLoop, List.foldl_append]
      rw [h1, ih]
      by_cases hm : m.role = Role.system
      · simp [hm, List.filter_append, List.getLast?_concat]
      · simp [hm, List.filter_append]

theorem jsonCompletionMessages_eq (prompt : String) (msgs : List Message) :
    jsonCompletionMessages prompt msgs
      = { role := Role.system,
          content :=
            match (msgs.filter (fun m => decide (m.role = Role.system))).getLast? with
            | none => prompt
            | some m => m.content ++ "\n\n" ++ prompt,
          name := none }
        :: msgs.filter (fun m => !(decide (m.role = Role.system))) := by
  unfold jsonCompletionMessages
  rw [jsonLoop_spec]

/- ### Tool-call extraction helpers -/

theorem extractToolCalls_eq_some (r : RawResponse) (m : RawMessage)
    (calls : List RawToolCall) (hm : r.message = some m)
    (hc : m.tool_calls = ToolCallsAttr.calls calls) (hne : calls ≠ []) :
    extractToolCalls r = Except.ok (some (buildToolCalls calls)) := by
  have hlen : (buildToolCalls calls).length = calls.length := buildToolCalls_length calls
  have hbe : ¬ (buildToolCalls calls).isEmpty = true := by
    rw [List.isEmpty_iff]
    intro h0
    apply hne
    rw [h0] at hlen
    exact List.eq_nil_of_length_eq_zero hlen.symm
  simp [extractToolCalls, hm, hc, hbe]

theorem extractToolCalls_ne_nil (r : RawResponse) (l : List ToolCallOut)
    (h : extractToolCalls r = Except.ok (some l)) : l ≠ [] := by
  unfold extractToolCalls at h
  cases hm : r.message with
  | none => simp [hm] at h
  | some m =>
      simp only [hm] at h
      cases hc : m.tool_calls with
      | absent => simp [hc] at h
      | null => simp [hc] at h
      | calls calls =>
          simp only [hc] at h
          by_cases hbe : (buildToolCalls calls).isEmpty = true
          · simp [hbe] at h
          · have hbl : buildToolCalls calls = l := by simpa [hbe] using h
            intro h0
            exact hbe (by rw [hbl, h0]; rfl)

/- ### Stripping helpers -/

theorem infixOfPrefixSuffix {α : Type} {l₁ l₂ l₃ : List α}
    (h1 : l₁ <+: l₂) (h2 : l₂ <:+ l₃) : l₁ <:+: l₃ := by
  obtain ⟨t, ht⟩ := h1
  obtain ⟨u, hu⟩ := h2
  exact ⟨u, t, by rw [← hu, ← ht, List.append_assoc]⟩

theorem pyStripList_stripFront (l : List Char) :
    pyStripList l <+: l.dropWhile pyIsSpace := by
  unfold pyStripList
  have h : (l.dropWhile pyIsSpace).reverse.dropWhile pyIsSpace
      <:+ (l.dropWhile pyIsSpace).reverse := List.dropWhile_suffix pyIsSpace
  rw [show (l.dropWhile pyIsSpace).reverse.dropWhile pyIsSpace
      = ((l.dropWhile pyIsSpace).reverse.dropWhile pyIsSpace).reverse.reverse by simp] at h
  exact List.reverse_suffix.mp h

theorem pyStripList_isInfixOf (l : List Char) : pyStripList l <:+: l :=
  infixOfPrefixSuffix (pyStripList_stripFront l) (List.dropWhile_suffix pyIsSpace)

theorem head_dropWhileFalse {α : Type} (p : α → Bool) (l : List α) :
    ∀ c, (l.dropWhile p).head? = some c → p c = false := by
  induction l with
  | nil => simp [List.dropWhile]
  | cons x xs ih =>
      intro c h
      rw [List.dropWhile_cons] at h
      by_cases hx : p x
      · rw [if_pos hx] at h
        exact ih c h
      · rw [if_neg hx] at h
        simp at h
        rw [← h]
        exact Bool.not_eq_true (p x) ▸ eq_false_of_ne_true hx

theorem headOfNonemptyPre {α : Type} {l₁ l₂ : List α} (h : l₁ <+: l₂) (c : α)
    (hc : l₁.head? = some c) : l₂.head? = some c := by
  obtain ⟨t, rfl⟩ := h
  cases l₁ <;> simp_all

theorem pyStripList_head (l : List Char) (c : Char)
    (hc : (pyStripList l).head? = some c) : pyIsSpace c = false := by
  have hh := headOfNonemptyPre (pyStripList_stripFront l) c hc
  exact head_dropWhileFalse pyIsSpace l c hh

theorem pyStripList_getLast (l : List Char) (c : Char)
    (hc : (pyStripList l).getLast? = some c) : pyIsSpace c = false := by
  rw [← List.head?_reverse] at hc
  unfold pyStripList at hc
  rw [List.reverse_reverse] at hc
  exact head_dropWhileFalse pyIsSpace (l.dropWhile pyIsSpace).reverse c hc

theorem pyStripList_ne_of_headSpace (l : List Char) (c : Char)
    (hh : l.head? = some c) (hsp : pyIsSpace c = true) : pyStripList l ≠ l := by
  intro he
  have := pyStripList_head l c (by rw [he]; exact hh)
  rw [this] at hsp
  exact Bool.false_ne_true hsp

theorem pyStripList_ne_of_lastSpace (l : List Char) (c : Char)
    (hh : l.getLast? = some c) (hsp : pyIsSpace c = true) : pyStripList l ≠ l := by
  intro he
  have := pyStripList_getLast l c (by rw [he]; exact hh)
  rw [this] at hsp
  exact Bool.false_ne_true hsp

/- ### Claim theorems -/

/-- C1 counterexample: the claim that the resulting system message carries THE
caller-supplied system content (so that none is replaced or lost) fails as soon
as the caller supplies two system messages: with system contents "A" then "B",
the built system message holds only "B" followed by the schema directive — the
content "A" is replaced and lost. -/
theorem jsonCompletion_system_merge_cex :
    ¬ (∀ m ∈ [({ role := Role.system, content := "A" } : Message),
              { role := Role.system, content := "B" }],
        (jsonCompletionMessages "P"
            [({ role := Role.system, content := "A" } : Message),
             { role := Role.system, content := "B" }]).head?
          = some { role := Role.system, content := m.content ++ "\n\n" ++ "P", name := none }) := by
  decide

/-- C1 (amended): for every input message list, the JSON-completion message
rewriting yields exactly one system message, at position 0; the non-system
messages follow in their original order; when the caller supplied no system
message the system content is exactly the schema directive, when it supplied
exactly one its content comes first with the schema directive appended, and in
general the LAST caller-supplied system content is the one merged (earlier
system contents are dropped). -/
theorem jsonCompletion_system_message_spec (prompt : String) (msgs : List Message) :
    ((jsonCompletionMessages prompt msgs).countP (fun m => decide (m.role = Role.system)) = 1)
    ∧ ((jsonCompletionMessages prompt msgs).head?.map Message.role = some Role.system)
    ∧ ((jsonCompletionMessages prompt msgs).tail
        = msgs.filter (fun m => !(decide (m.role = Role.system))))
    ∧ (msgs.filter (fun m => decide (m.role = Role.system)) = [] →
        (jsonCompletionMessages prompt msgs).head?
          = some { role := Role.system, content := prompt, name := none })
    ∧ (∀ m0 : Message, msgs.filter (fun m => decide (m.role = Role.system)) = [m0] →
        (jsonCompletionMessages prompt msgs).head?
          = some { role := Role.system, content := m0.content ++ "\n\n" ++ prompt, name := none })
    ∧ (∀ m0 : Message,
        (msgs.filter (fun m => decide (m.role = Role.system))).getLast? = some m0 →
        (jsonCompletionMessages prompt msgs).head?
          = some { role := Role.system, content := m0.content ++ "\n\n" ++ prompt,
                   name := none }) := by
  rw [jsonCompletionMessages_eq]
  refine ⟨?_, by simp, by simp, ?_, ?_, ?_⟩
  · simp [List.countP_cons, List.countP_filter]
  · intro h
    simp [h]
  · intro m0 h
    simp [h]
  · intro m0 h
    simp [h]

/-- C1 witness: one caller-supplied system message "S" with schema directive
"P" yields the system message "S\n\nP" at position 0, followed by the
remaining messages. -/
theorem jsonCompletion_system_message_spec_witness :
    jsonCompletionMessages "P"
        [({ role := Role.system, content := "S" } : Message),
         { role := Role.user, content := "u" }]
      = [{ role := Role.system, content := "S\n\nP" }, { role := Role.user, content := "u" }] := by
  have h := (jsonCompletion_system_message_spec "P"
      [({ role := Role.system, content := "S" } : Message),
       { role := Role.user, content := "u" }]).2.2.2.2.1
      { role := Role.system, content := "S" } (by decide)
  have ht := (jsonCompletion_system_message_spec "P"
      [({ role := Role.system, content := "S" } : Message),
       { role := Role.user, content := "u" }]).2.2.1
  rw [show ("S" ++ "\n\n" ++ "P" : String) = "S\n\nP" from rfl] at h
  cases hl : jsonCompletionMessages "P"
      [({ role := Role.system, content := "S" } : Message),
       { role := Role.user, content := "u" }] with
  | nil => rw [hl] at h; exact absurd h (by simp)
  | cons a l =>
      rw [hl] at h ht
      simp only [List.head?_cons, Option.some.injEq] at h
      simp only [List.tail_cons] at ht
      rw [h, ht]
      decide

/-- C2 counterexample: tool-call extraction does not return null on every
zero-invocation backend report — when the `tool_calls` attribute is present
but holds `None` (the SDK's standard zero-invocation shape), it passes the
`hasattr` guard and the extraction loop raises instead of returning null, so
the tool completion fails with a `ProviderError` rather than producing a
response with null tool_calls. -/
theorem toolCalls_null_attribute_cex :
    extractToolCalls { message := some { tool_calls := ToolCallsAttr.null } }
      = Except.error "TypeError: NoneType object is not iterable"
    ∧ getToolCompletion
        (PyResult.ok { message := some { tool_calls := ToolCallsAttr.null } })
      = Except.error
          ⟨"Ollama tool completion failed: TypeError: NoneType object is not iterable"⟩ :=
  ⟨rfl, rfl⟩

/-- C2 (amended): tool-call extraction yields null when the tool-calls
structure is absent (missing message, missing attribute) or an empty list,
and a non-empty list of exactly the reported length when the backend reports
at least one invocation; but a tool-calls attribute present holding null
makes the extraction loop raise, and the tool completion then fails with a
`ProviderError` instead of returning any response.  Hence every ModelResponse
actually produced by the adapter still carries tool_calls that are either
null or non-empty. -/
theorem toolCalls_extraction_spec :
    (∀ r : RawResponse, r.message = none → extractToolCalls r = Except.ok none)
    ∧ (∀ (r : RawResponse) (m : RawMessage), r.message = some m →
        m.tool_calls = ToolCallsAttr.absent → extractToolCalls r = Except.ok none)
    ∧ (∀ (r : RawResponse) (m : RawMessage), r.message = some m →
        m.tool_calls = ToolCallsAttr.calls [] → extractToolCalls r = Except.ok none)
    ∧ (∀ (r : RawResponse) (m : RawMessage) (calls : List RawToolCall), r.message = some m →
        m.tool_calls = ToolCallsAttr.calls calls → calls ≠ [] →
        extractToolCalls r = Except.ok (some (buildToolCalls calls))
        ∧ (buildToolCalls calls).length = calls.length
        ∧ buildToolCalls calls ≠ [])
    ∧ (∀ (r : RawResponse) (m : RawMessage), r.message = some m →
        m.tool_calls = ToolCallsAttr.null →
        extractToolCalls r = Except.error "TypeError: NoneType object is not iterable"
        ∧ ∀ resp : ModelResponse, getToolCompletion (PyResult.ok r) ≠ Except.ok resp)
    ∧ (∀ (br : PyResult RawResponse) (resp : ModelResponse),
        getToolCompletion br = Except.ok resp →
        resp.tool_calls = none ∨ ∃ l, resp.tool_calls = some l ∧ l ≠ [])
    ∧ (∀ (br : PyResult RawResponse) (resp : ModelResponse),
        getChatCompletion br = Except.ok resp → resp.tool_calls = none) := by
  refine ⟨?_, ?_, ?_, ?_, ?_, ?_, ?_⟩
  · intro r h
    simp [extractToolCalls, h]
  · intro r m h1 h2
    simp [extractToolCalls, h1, h2]
  · intro r m h1 h2
    simp [extractToolCalls, h1, h2, buildToolCalls]
  · intro r m calls h1 h2 h3
    refine ⟨extractToolCalls_eq_some r m calls h1 h2 h3, buildToolCalls_length calls, ?_⟩
    intro h0
    have := buildToolCalls_length calls
    rw [h0] at this
    exact h3 (List.eq_nil_of_length_eq_zero this.symm)
  · intro r m h1 h2
    have he : extractToolCalls r = Except.error "TypeError: NoneType object is not iterable" := by
      simp [extractToolCalls, h1, h2]
    refine ⟨he, ?_⟩
    intro resp h
    rw [show getToolCompletion (PyResult.ok r)
        = Except.error
            ⟨"Ollama tool completion failed: TypeError: NoneType object is not iterable"⟩ by
      simp [getToolCompletion, he]] at h
    exact absurd h (by simp)
  · intro br resp h
    cases br with
    | exn e => simp [getToolCompletion] at h
    | ok r =>
        cases ht : extractToolCalls r with
        | error e => simp [getToolCompletion, ht] at h
        | ok tcs =>
            cases hec : extractContent r with
            | error e => simp [getToolCompletion, ht, hec] at h
            | ok c =>
                simp only [getToolCompletion, ht, hec, Except.ok.injEq] at h
                subst h
                cases tcs with
                | none => exact Or.inl rfl
                | some l => exact Or.inr ⟨l, rfl, extractToolCalls_ne_nil r l ht⟩
  · intro br resp h
    cases br with
    | exn e => simp [getChatCompletion] at h
    | ok r =>
        cases hec : extractContent r with
        | error e => simp [getChatCompletion, hec] at h
        | ok c =>
            simp only [getChatCompletion, hec, Except.ok.injEq] at h
            subst h
            rfl

/-- C2 witness: a backend report of zero invocations (empty list) yields null,
and a report of two invocations (both without ids) yields the non-empty
two-element list with synthesized ids. -/
theorem toolCalls_extraction_spec_witness :
    extractToolCalls { message := some { tool_calls := ToolCallsAttr.calls [] } }
      = Except.ok none
    ∧ extractToolCalls
        { message := some
            { tool_calls := ToolCallsAttr.calls
                [{ function := { name := "f", arguments := PyJson.null } },
                 { function := { name := "g", arguments := PyJson.null } }] } }
      = Except.ok (some
          [{ id := "call_0", type := "function",
             function := { name := "f", arguments := "null" } },
           { id := "call_1", type := "function",
             function := { name := "g", arguments := "null" } }]) := by
  constructor
  · exact toolCalls_extraction_spec.2.2.1 _ { tool_calls := ToolCallsAttr.calls [] } rfl rfl
  · have h := (toolCalls_extraction_spec.2.2.2.1
        { message := some
            { tool_calls := ToolCallsAttr.calls
                [{ function := { name := "f", arguments := PyJson.null } },
                 { function := { name := "g", arguments := PyJson.null } }] } }
        { tool_calls := ToolCallsAttr.calls
            [{ function := { name := "f", arguments := PyJson.null } },
             { function := { name := "g", arguments := PyJson.null } }] }
        [{ function := { name := "f", arguments := PyJson.null } },
         { function := { name := "g", arguments := PyJson.null } }]
        rfl rfl (List.cons_ne_nil _ _)).1
    exact h.trans (congrArg (fun l => Except.ok (some l)) (by decide))

/-- C3: whenever the backend call itself succeeded but the extracted content
fails to parse as JSON, or parses and then fails schema validation, the JSON
completion returns an error — a `ProviderError` whose message describes the
invalid-JSON condition — and no `ModelResponse`. -/
theorem jsonCompletion_validation_failure
    (parse : String → Except String PyJson) (validate : PyJson → Except String Unit)
    (r : RawResponse) (c : String) (hc : extractContent r = Except.ok c)
    (hfail : (∃ em, parse c = Except.error em)
      ∨ (∃ d, parse c = Except.ok d ∧ ∃ em, validate d = Except.error em)) :
    ∃ em, getJsonCompletion parse validate (PyResult.ok r)
        = Except.error ⟨"Ollama JSON completion failed: Invalid JSON response: " ++ em⟩ := by
  rcases hfail with ⟨em, hp⟩ | ⟨d, hp, em, hv⟩
  · exact ⟨em, by simp [getJsonCompletion, hc, hp]⟩
  · exact ⟨em, by simp [getJsonCompletion, hc, hp, hv]⟩

/-- C3 witness: a backend reply whose content "nope" is rejected by the JSON
parser makes the JSON completion fail with the invalid-JSON `ProviderError`. -/
theorem jsonCompletion_validation_failure_witness :
    ∃ em, getJsonCompletion (fun _ => Except.error "Expecting value")
        (fun _ => Except.ok ())
        (PyResult.ok { message := some { content := ContentAttr.str "nope" } })
      = Except.error ⟨"Ollama JSON completion failed: Invalid JSON response: " ++ em⟩ :=
  jsonCompletion_validation_failure (fun _ => Except.error "Expecting value")
    (fun _ => Except.ok ())
    { message := some { content := ContentAttr.str "nope" } } "nope" rfl
    (Or.inl ⟨"Expecting value", rfl⟩)

/-- C4: an exception raised by the backend call inside any of the three
synchronous completion operations surfaces as a `ProviderError` whose message
carries the original exception text appended to the mode-specific prefix; the
result type admits no other error shape, so no backend-native exception
escapes. -/
theorem backend_exception_wrapped (e : String)
    (parse : String → Except String PyJson) (validate : PyJson → Except String Unit) :
    getChatCompletion (PyResult.exn e) = Except.error ⟨"Ollama completion failed: " ++ e⟩
    ∧ getToolCompletion (PyResult.exn e)
        = Except.error ⟨"Ollama tool completion failed: " ++ e⟩
    ∧ getJsonCompletion parse validate (PyResult.exn e)
        = Except.error ⟨"Ollama JSON completion failed: " ++ e⟩ :=
  ⟨rfl, rfl, rfl⟩

/-- C5 counterexample: content extraction is not exception-free on every raw
response — a response whose `message.content` attribute is present but holds
`None` (a non-string) passes the `hasattr` guard, and `None.strip()` raises,
modelled as the error result instead of any `Except.ok` value. -/
theorem extractContent_null_content_cex :
    extractContent { message := some { content := ContentAttr.null } }
      = Except.error "AttributeError: NoneType object has no attribute strip" := rfl

/-- C5 (amended): content extraction returns the empty string when the
`message` attribute or its `content` attribute is absent and never raises in
those cases, and returns the stripped text when the content is a string; but
when the content attribute is present and holds `None`, extraction raises
(the error is then wrapped as a `ProviderError` by the calling completion
operation) rather than returning the empty string. -/
theorem extractContent_leniency (r : RawResponse) :
    (r.message = none → extractContent r = Except.ok "")
    ∧ (∀ m : RawMessage, r.message = some m → m.content = ContentAttr.absent →
        extractContent r = Except.ok "")
    ∧ (∀ (m : RawMessage) (s : String), r.message = some m → m.content = ContentAttr.str s →
        extractContent r = Except.ok (pyStrip s))
    ∧ (∀ m : RawMessage, r.message = some m → m.content = ContentAttr.null →
        extractContent r
          = Except.error "AttributeError: NoneType object has no attribute strip") := by
  refine ⟨?_, ?_, ?_, ?_⟩
  · intro h
    simp [extractContent, h]
  · intro m h1 h2
    simp [extractContent, h1, h2]
  · intro m s h1 h2
    simp [extractContent, h1, h2]
  · intro m h1 h2
    simp [extractContent, h1, h2]

/-- C5 witness: the lenient branches evaluated at concrete responses — an
empty response and a response without a content attribute both yield the
empty string; a string content is returned stripped. -/
theorem extractContent_leniency_witness :
    extractContent { } = Except.ok ""
    ∧ extractContent { message := some { } } = Except.ok ""
    ∧ extractContent { message := some { content := ContentAttr.str " hi " } }
        = Except.ok "hi" := by
  refine ⟨(extractContent_leniency { }).1 rfl,
    (extractContent_leniency { message := some { } }).2.1 { } rfl rfl, ?_⟩
  have h := (extractContent_leniency
      { message := some { content := ContentAttr.str " hi " } }).2.2.1
      { content := ContentAttr.str " hi " } " hi " rfl rfl
  exact h.trans (congrArg Except.ok (by decide))

/-- C6: in the extracted tool-call list, a call whose backend-supplied id is
absent receives the synthesized id `call_<index>` formed from its position in
the list, and two distinct positions with synthesized ids always carry
distinct ids. -/
theorem toolCall_synthesized_ids (calls : List RawToolCall) (i j : Nat)
    (hi : i < calls.length) (hj : j < calls.length)
    (hi2 : i < (buildToolCalls calls).length) (hj2 : j < (buildToolCalls calls).length) :
    ((calls.get ⟨i, hi⟩).id = none →
      ((buildToolCalls calls).get ⟨i, hi2⟩).id = "call_" ++ pyStrNat i)
    ∧ (i ≠ j → (calls.get ⟨i, hi⟩).id = none → (calls.get ⟨j, hj⟩).id = none →
        ((buildToolCalls calls).get ⟨i, hi2⟩).id
          ≠ ((buildToolCalls calls).get ⟨j, hj2⟩).id) := by
  have hgi : (buildToolCalls calls).get ⟨i, hi2⟩ = mkToolCallOut i (calls.get ⟨i, hi⟩) := by
    rw [List.get_eq_getElem, List.get_eq_getElem]
    exact buildToolCalls_getElem calls i hi hi2
  have hgj : (buildToolCalls calls).get ⟨j, hj2⟩ = mkToolCallOut j (calls.get ⟨j, hj⟩) := by
    rw [List.get_eq_getElem, List.get_eq_getElem]
    exact buildToolCalls_getElem calls j hj hj2
  constructor
  · intro h
    rw [hgi]
    simp only [mkToolCallOut, h, Option.getD_none]
  · intro hij h1 h2
    rw [hgi, hgj]
    simp only [mkToolCallOut, h1, h2, Option.getD_none]
    intro he
    exact hij (callId_inj he)

/-- C6 witness: two backend invocations without ids receive the distinct
synthesized ids call_0 and call_1. -/
theorem toolCall_synthesized_ids_witness :
    ((buildToolCalls
        [{ function := { name := "f", arguments := PyJson.null } },
         { function := { name := "g", arguments := PyJson.null } }]).get ⟨0, by decide⟩).id
      = "call_0"
    ∧ ((buildToolCalls
        [{ function := { name := "f", arguments := PyJson.null } },
         { function := { name := "g", arguments := PyJson.null } }]).get ⟨0, by decide⟩).id
      ≠ ((buildToolCalls
        [{ function := { name := "f", arguments := PyJson.null } },
         { function := { name := "g", arguments := PyJson.null } }]).get ⟨1, by decide⟩).id := by
  have h := toolCall_synthesized_ids
      [{ function := { name := "f", arguments := PyJson.null } },
       { function := { name := "g", arguments := PyJson.null } }]
      0 1 (by decide) (by decide) (by decide) (by decide)
  exact ⟨(h.1 rfl).trans (by decide), h.2 (by decide) rfl rfl⟩

/-- C7: the wire translation preserves message count and order — the entry at
every position is the translation of the message at that position — and on
tool-role messages it is inverted by the inverse wire mapping, which recovers
the original role, content and name. -/
theorem formatMessages_order_roundtrip (msgs : List Message) (i : Nat)
    (hi : i < msgs.length) (hi2 : i < (formatMessages msgs).length) :
    (formatMessages msgs).length = msgs.length
    ∧ (formatMessages msgs).get ⟨i, hi2⟩ = formatMessage (msgs.get ⟨i, hi⟩)
    ∧ (∀ m : Message, m.role = Role.tool → unformatMessage (formatMessage m) = some m) := by
  refine ⟨by rw [formatMessages_eq_map, List.length_map], ?_, ?_⟩
  · rw [List.get_eq_getElem, List.get_eq_getElem]
    have h2 : i < (List.map formatMessage msgs).length := by
      rw [← formatMessages_eq_map]
      exact hi2
    rw [show (formatMessages msgs)[i] = (List.map formatMessage msgs)[i] by
      congr 1; exact formatMessages_eq_map msgs]
    simp
  · intro m hm
    rcases m with ⟨role, content, name⟩
    simp only at hm
    subst hm
    cases name <;>
      simp [formatMessage, unformatMessage, parseRole, optWire, List.lookup]

/-- C7 witness: a conversation of a user message followed by a named tool
result translates in order, and the tool entry round-trips through the
inverse mapping. -/
theorem formatMessages_order_roundtrip_witness :
    (formatMessages [{ role := Role.user, content := "u" },
        { role := Role.tool, content := "out", name := some "t" }]).get ⟨1, by decide⟩
      = formatMessage { role := Role.tool, content := "out", name := some "t" }
    ∧ unformatMessage (formatMessage { role := Role.tool, content := "out", name := some "t" })
      = some { role := Role.tool, content := "out", name := some "t" } := by
  have h := formatMessages_order_roundtrip
      [{ role := Role.user, content := "u" },
       { role := Role.tool, content := "out", name := some "t" }]
      1 (by decide) (by decide)
  exact ⟨h.2.1, h.2.2 { role := Role.tool, content := "out", name := some "t" } rfl⟩

/-- C8 counterexample: the async plain chat completion does NOT send the sync
translation — for a single user message the async payload serializes the full
record (including a null name field) while the sync translation emits only
role and content. -/
theorem asyncChat_wire_mismatch_cex :
    agetChatMessages [{ role := Role.user, content := "hi" }]
      ≠ formatMessages [{ role := Role.user, content := "hi" }] := by decide

/-- C8 (amended): the async plain chat completion serializes each message by a
full model dump instead of the sync translation: each async entry is the sync
entry with a name field appended (unless the message is tool-role, whose sync
entry already ends in the name field).  Message count and order agree, and the
two payloads coincide exactly when every message is tool-role. -/
theorem asyncChat_wire_spec (msgs : List Message) :
    agetChatMessages msgs
      = msgs.map (fun m => formatMessage m ++
          (if m.role = Role.tool then [] else [("name", optWire m.name)]))
    ∧ (agetChatMessages msgs).length = (formatMessages msgs).length
    ∧ ((∀ m ∈ msgs, m.role = Role.tool) → agetChatMessages msgs = formatMessages msgs) := by
  have hdump : ∀ m : Message, modelDump m
      = formatMessage m ++ (if m.role = Role.tool then [] else [("name", optWire m.name)]) := by
    intro m
    rcases m with ⟨role, content, name⟩
    cases role <;> simp [modelDump, formatMessage, roleStr]
  refine ⟨List.map_congr_left (fun m _ => hdump m), ?_, ?_⟩
  · simp [agetChatMessages, formatMessages_eq_map]
  · intro h
    rw [formatMessages_eq_map]
    exact List.map_congr_left (fun m hm => by rw [hdump m, if_pos (h m hm), List.append_nil])

/-- C8 witness: on an all-tool message list the async and sync payloads agree
(the general mismatch is witnessed by the counterexample above). -/
theorem asyncChat_wire_spec_witness :
    agetChatMessages [{ role := Role.tool, content := "r", name := some "t" }]
      = formatMessages [{ role := Role.tool, content := "r", name := some "t" }] :=
  (asyncChat_wire_spec [{ role := Role.tool, content := "r", name := some "t" }]).2.2
    (by decide)

/-- C9: when the raw response carries a string content, extraction returns
that string stripped of leading and trailing whitespace: the result is an
infix of the original whose first and last characters are non-whitespace, and
a string carrying surrounding whitespace is never returned verbatim. -/
theorem extractContent_strips_whitespace (r : RawResponse) (m : RawMessage) (s : String)
    (hm : r.message = some m) (hc : m.content = ContentAttr.str s) :
    extractContent r = Except.ok (pyStrip s)
    ∧ (pyStrip s).data <:+: s.data
    ∧ (∀ c : Char, (pyStrip s).data.head? = some c → pyIsSpace c = false)
    ∧ (∀ c : Char, (pyStrip s).data.getLast? = some c → pyIsSpace c = false)
    ∧ (∀ c : Char, s.data.head? = some c → pyIsSpace c = true → pyStrip s ≠ s)
    ∧ (∀ c : Char, s.data.getLast? = some c → pyIsSpace c = true → pyStrip s ≠ s) := by
  refine ⟨by simp [extractContent, hm, hc], pyStripList_isInfixOf s.data, ?_, ?_, ?_, ?_⟩
  · intro c h
    exact pyStripList_head s.data c h
  · intro c h
    exact pyStripList_getLast s.data c h
  · intro c h hsp he
    exact pyStripList_ne_of_headSpace s.data c h hsp (congrArg String.data he)
  · intro c h hsp he
    exact pyStripList_ne_of_lastSpace s.data c h hsp (congrArg String.data he)

/-- C9 witness: the content " a " is returned as its stripped form, not
verbatim. -/
theorem extractContent_strips_whitespace_witness :
    extractContent { message := some { content := ContentAttr.str " a " } }
      = Except.ok (pyStrip " a ")
    ∧ pyStrip " a " ≠ " a " := by
  have h := extractContent_strips_whitespace
      { message := some { content := ContentAttr.str " a " } }
      { content := ContentAttr.str " a " } " a " rfl rfl
  exact ⟨h.1, h.2.2.2.2.1 ' ' (by decide) (by decide)⟩

/-- C10: the wire translation of a user- or assistant-role message carries
only the role and content keys — any caller-supplied name is dropped — while
the tool-role translation carries the name key with the message's name. -/
theorem formatMessage_drops_name (m : Message) :
    ((m.role = Role.user ∨ m.role = Role.assistant) →
      (formatMessage m).map Prod.fst = ["role", "content"]
      ∧ formatMessage m
          = [("role", WireValue.str (roleStr m.role)), ("content", WireValue.str m.content)])
    ∧ (m.role = Role.tool →
        (formatMessage m).map Prod.fst = ["role", "content", "name"]
        ∧ (formatMessage m).lookup "name" = some (optWire m.name)) := by
  rcases m with ⟨role, content, name⟩
  constructor
  · rintro (h | h) <;> subst h <;> simp [formatMessage, roleStr]
  · intro h
    subst h
    simp [formatMessage, List.lookup]

/-- C10 witness: a named user message translates to a role/content-only
entry; a named tool message keeps its name on the wire. -/
theorem formatMessage_drops_name_witness :
    (formatMessage { role := Role.user, content := "hi", name := some "alice" }).map Prod.fst
      = ["role", "content"]
    ∧ (formatMessage { role := Role.tool, content := "out", name := some "t" }).lookup "name"
      = some (WireValue.str "t") := by
  refine ⟨((formatMessage_drops_name
      { role := Role.user, content := "hi", name := some "alice" }).1 (Or.inl rfl)).1, ?_⟩
  exact ((formatMessage_drops_name
      { role := Role.tool, content := "out", name := some "t" }).2 rfl).2

end Legion
